import Mathlib

/-!
Verification development for `pwiki/wparser.py`: the mutable document model
(`WikiText`, `WikiTemplate`) and its operations.

Two complementary shallow embeddings of the same Python classes are used:

* a pure tree model (`PNode`): a `WikiText` is a list of nodes, a node is a
  text run or a `WikiTemplate` (title plus ordered parameter list whose values
  are again `WikiText`s).  This view is used for the operations that neither
  read nor write the `parent` back-reference: serialization (`as_text`,
  `__str__`), text append, and template traversal (`templates`,
  `all_templates`);

* a heap model (`State`): `WikiText` and `WikiTemplate` objects carry numeric
  identities, a document maps to its node list, a template object to its
  title, parameter list (values are `WikiText` object ids) and optional
  `parent` document id.  This view is used for the mutating operations that
  manipulate object identity and the back-reference: `__iadd__`, `drop`,
  `__setitem__`, `pop`, `remap`.
-/

/-- Python exceptions raised by the embedded code.  `modelFuel` is a modelling
artifact used by fuel-indexed loops and is never returned for the inputs the
theorems consider. -/
inductive PyErr where
  | typeError
  | keyError
  | valueError
  | attributeError
  | modelFuel
deriving DecidableEq, Repr

/-- ASCII whitespace in the sense of Python `str.strip()`: space, tab,
linefeed, carriage return, vertical tab, form feed.  (Python additionally
strips non-ASCII Unicode whitespace, which no claim exercises.) -/
def pyIsSpace (c : Char) : Bool :=
  c = ' ' || c = '\t' || c = '\n' || c = '\r' || c = Char.ofNat 11 || c = Char.ofNat 12

/-- Python `str.strip()`: remove leading and trailing whitespace. -/
def pyStrip (s : String) : String :=
  String.mk (((s.toList.dropWhile pyIsSpace).reverse.dropWhile pyIsSpace).reverse)

/-- Pure tree view of the object graph of `wparser.py`: a node of
`WikiText._l` is either a `str` text run or a `WikiTemplate`, and a
`WikiTemplate` holds a title and the ordered dict `_params` mapping parameter
names to `WikiText` values (a `WikiText` being a `List PNode`).  The `parent`
back-reference is omitted: none of the operations embedded against this model
read or write it. -/
inductive PNode where
  | text : String → PNode
  | tmpl : String → List (String × List PNode) → PNode
deriving Repr

/-- `isinstance(x, WikiTemplate)` for a node of `WikiText._l`. -/
def PNode.isTmpl : PNode → Bool
  | .tmpl _ _ => true
  | .text _ => false

/-- Property `WikiText.templates`: the `WikiTemplate` objects directly in the
node list, in list order (`[x for x in self._l if isinstance(x, WikiTemplate)]`). -/
def templatesOf (l : List PNode) : List PNode :=
  l.filter PNode.isTmpl

mutual

/-- The rendering `str(x)` of one node `x` of `WikiText._l` performed inside
`WikiText.as_text`: a `str` node renders as itself, a `WikiTemplate` node
renders via `WikiTemplate.__str__`, i.e. `WikiTemplate.as_text()` with
`indent=False` (so the parameter part uses the plain `"|"` prefix and there is
no trailing newline). -/
def nodeStr : PNode → String
  | .text s => s
  | .tmpl title ps => "\x7b\x7b" ++ title ++ paramsOut "|" ps ++ "\x7d\x7d"

/-- The `"".join(f"{prefix}{k}={v}" for k, v in self._params.items())` of
`WikiTemplate.as_text`.  Formatting `{v}` invokes `WikiText.__str__`, which is
`self.as_text(True)`: the value's serialization with leading and trailing
whitespace stripped. -/
def paramsOut (pre : String) : List (String × List PNode) → String
  | [] => ""
  | (k, v) :: rest => pre ++ k ++ "=" ++ pyStrip (docJoin v) ++ paramsOut pre rest

/-- The `"".join(str(x) for x in self._l)` of `WikiText.as_text`. -/
def docJoin : List PNode → String
  | [] => ""
  | n :: rest => nodeStr n ++ docJoin rest

end

/-- `WikiText.as_text(trim)`: concatenate the rendering of every node; strip
the final result iff `trim`. -/
def asText (trim : Bool) (l : List PNode) : String :=
  if trim then pyStrip (docJoin l) else docJoin l

/-- `WikiTemplate.as_text(indent)`: `prefix = ("\n" if indent else "") + "|"`,
`out` joins `f"{prefix}{k}={v}"` over the parameters, a trailing newline is
added iff `indent`, and the result is `f"{{{{{self.title}{out}}}}}"`. -/
def tmplAsText (indent : Bool) (title : String) (ps : List (String × List PNode)) : String :=
  let pre := (if indent then "\n" else "") ++ "|"
  let out := paramsOut pre ps
  let out := if indent then out ++ "\n" else out
  "\x7b\x7b" ++ title ++ out ++ "\x7d\x7d"

/-- The `str` branch of `WikiText.__iadd__`: empty text is a no-op; otherwise
the text is concatenated onto the last node if that node is a text run
(`self._l and isinstance(self._l[-1], str)`), and appended as a new node
otherwise. -/
def iaddText (l : List PNode) (s : String) : List PNode :=
  if s = "" then l
  else
    match l.getLast? with
    | some (.text t) => l.dropLast ++ [.text (t ++ s)]
    | _ => l ++ [.text s]

/-- The attribute access `curr.templates` that `WikiText.all_templates`
performs on each `WikiTemplate` it pops from its deque: class `WikiTemplate`
defines no attribute, property or method named `templates` (the `templates`
property lives on `WikiText` only), so the access raises `AttributeError`. -/
def getattrTemplates (_curr : PNode) : Except PyErr (List PNode) :=
  .error .attributeError

/-- The `while q:` loop of `WikiText.all_templates`:
`q.extend((curr := q.pop()).templates); out.append(curr)`.  `q.pop()` pops the
rightmost element.  The loop is indexed by fuel; each iteration consumes one
unit, and `modelFuel` signals exhaustion (never reached: the attribute access
of `getattrTemplates` fails on the first iteration whenever `q` is nonempty). -/
def allTemplatesLoop : Nat → List PNode → List PNode → Except PyErr (List PNode)
  | _, [], out => .ok out
  | 0, _ :: _, _ => .error .modelFuel
  | fuel + 1, a :: l, out =>
    let curr := (a :: l).getLast (List.cons_ne_nil a l)
    match getattrTemplates curr with
    | .error e => .error e
    | .ok children => allTemplatesLoop fuel ((a :: l).dropLast ++ children) (out ++ [curr])

/-- `WikiText.all_templates()`: `out = []`, `q = deque(self.templates)`, then
the loop above.  Fuel `length + 1` suffices to reach the first iteration,
which is as far as the code ever gets on a nonempty deque. -/
def allTemplates (d : List PNode) : Except PyErr (List PNode) :=
  allTemplatesLoop ((templatesOf d).length + 1) (templatesOf d) []

/-- Modelled from the spec: the "direct child Templates" of a Template that
`all_templates` is specified to push are the Templates directly contained in
its parameter values, in parameter order (the `WikiTemplate` class in the
source defines no `templates` attribute for the loop to read; this definition
supplies the spec's stated meaning of that read). -/
def specTmplTemplates : PNode → List PNode
  | .text _ => []
  | .tmpl _ ps => (ps.map (fun kv => templatesOf kv.2)).flatten

mutual

/-- Node count of a tree node, counting nested parameter contents; an upper
bound for the number of template nodes in a subtree. -/
def PNode.size : PNode → Nat
  | .text _ => 1
  | .tmpl _ ps => 1 + paramsSize ps

/-- Node count of a parameter list. -/
def paramsSize : List (String × List PNode) → Nat
  | [] => 0
  | (_, v) :: rest => docSize v + paramsSize rest

/-- Node count of a document. -/
def docSize : List PNode → Nat
  | [] => 0
  | n :: rest => PNode.size n + docSize rest

end

/-- Modelled from the spec: the LIFO-stack traversal of `all_templates` with
the intended child read — repeatedly pop the most recently pushed Template,
emit it, push its direct child Templates.  Fuel-indexed; one unit per emitted
Template, so any fuel bounding the total number of templates is enough. -/
def specAllTemplatesLoop : Nat → List PNode → List PNode → List PNode
  | 0, _, out => out
  | _ + 1, [], out => out
  | fuel + 1, a :: l, out =>
    let curr := (a :: l).getLast (List.cons_ne_nil a l)
    specAllTemplatesLoop fuel ((a :: l).dropLast ++ specTmplTemplates curr) (out ++ [curr])

/-- Modelled from the spec: `all_templates` with the intended child read.
`docSize d` bounds the number of templates in `d`, hence the number of loop
iterations. -/
def specAllTemplates (d : List PNode) : List PNode :=
  specAllTemplatesLoop (docSize d) (templatesOf d) []

/-- Template `A1`, child of `A`, from the traversal-order example. -/
def tmplA1 : PNode := .tmpl "A1" []

/-- Template `A` with child `A1` in its sole parameter. -/
def tmplA : PNode := .tmpl "A" [("1", [tmplA1])]

/-- Template `B1`, child of `B`, from the traversal-order example. -/
def tmplB1 : PNode := .tmpl "B1" []

/-- Template `B` with child `B1` in its sole parameter. -/
def tmplB : PNode := .tmpl "B" [("1", [tmplB1])]

/-- The document of the traversal-order example: top-level templates `A`
(containing `A1`) then `B` (containing `B1`), in document order. -/
def docAB : List PNode := [tmplA, tmplB]

/-- Concatenation of a list of strings; used to state the rendered form of a
parameter list. -/
def strConcat (l : List String) : String := l.foldr (· ++ ·) ""

/-- The parameter part of `WikiTemplate.as_text` is the concatenation, in
insertion order, of `prefix + key + "=" + str(value)` where `str(value)` is
the value's trimmed serialization. -/
theorem paramsOut_eq_strConcat (pre : String) (ps : List (String × List PNode)) :
    paramsOut pre ps = strConcat (ps.map fun kv => pre ++ kv.1 ++ "=" ++ pyStrip (docJoin kv.2)) := by
  induction ps with
  | nil => rfl
  | cons kv rest ih =>
    obtain ⟨k, v⟩ := kv
    simp only [paramsOut, List.map_cons, strConcat, List.foldr_cons] at *
    rw [ih]

/-- C2: `all_templates` is specified to perform a LIFO-stack traversal
returning `[B, B1, A, A1]` on the document whose top-level templates are `A`
(containing `A1`) then `B` (containing `B1`); but the code reads the attribute
`templates` of a popped `WikiTemplate`, which does not exist on that class, so
`all_templates` raises `AttributeError` on every document that has at least
one top-level template and only returns (the empty list) on documents with
none.  The spec-modelled traversal does return `[B, B1, A, A1]`. -/
theorem all_templates_raises_attribute_error :
    allTemplates docAB = .error .attributeError
  ∧ specAllTemplates docAB = [tmplB, tmplB1, tmplA, tmplA1]
  ∧ (∀ d : List PNode, templatesOf d ≠ [] → allTemplates d = .error .attributeError)
  ∧ allTemplates [] = .ok [] := by
  refine ⟨rfl, rfl, ?_, rfl⟩
  intro d hd
  cases h : templatesOf d with
  | nil => exact absurd h hd
  | cons a l => simp [allTemplates, h, allTemplatesLoop, getattrTemplates]

/-- Witness for `all_templates_raises_attribute_error`: the hypothesis of its
universally quantified conjunct holds at the concrete document `[A]`, and the
code raises `AttributeError` there. -/
theorem all_templates_raises_attribute_error_witness :
    allTemplates [tmplA] = .error .attributeError :=
  all_templates_raises_attribute_error.2.2.1 [tmplA] (List.cons_ne_nil _ _)

/-- C4: appending the empty string to a `WikiText` changes nothing; appending
nonempty text concatenates it onto the last node when that node is a text run
and appends a new node otherwise; consequently `WikiText("a") += "b"` holds
the single node `"ab"` and serializes to `"ab"`. -/
theorem iadd_text_merge_law (l : List PNode) (t s : String) (hs : s ≠ "") :
    iaddText l "" = l
  ∧ iaddText (l ++ [PNode.text t]) s = l ++ [PNode.text (t ++ s)]
  ∧ ((∀ u, l.getLast? ≠ some (PNode.text u)) → iaddText l s = l ++ [PNode.text s])
  ∧ iaddText (iaddText [] "a") "b" = [PNode.text "ab"]
  ∧ (iaddText (iaddText [] "a") "b").length = 1
  ∧ asText false (iaddText (iaddText [] "a") "b") = "ab" := by
  refine ⟨by simp [iaddText], ?_, ?_, rfl, rfl, rfl⟩
  · simp [iaddText, hs, List.getLast?_concat, List.dropLast_concat]
  · intro hl
    simp only [iaddText, if_neg hs]

/-- Witness for `iadd_text_merge_law` at the text run `"x"`, appended text
`"y"` and a document ending in a template node. -/
theorem iadd_text_merge_law_witness :
    iaddText [PNode.tmpl "T" []] "" = [PNode.tmpl "T" []]
  ∧ iaddText ([PNode.tmpl "T" []] ++ [PNode.text "x"]) "y"
      = [PNode.tmpl "T" []] ++ [PNode.text ("x" ++ "y")]
  ∧ ((∀ u, [PNode.tmpl "T" []].getLast? ≠ some (PNode.text u)) →
      iaddText [PNode.tmpl "T" []] "y" = [PNode.tmpl "T" []] ++ [PNode.text "y"])
  ∧ iaddText (iaddText [] "a") "b" = [PNode.text "ab"]
  ∧ (iaddText (iaddText [] "a") "b").length = 1
  ∧ asText false (iaddText (iaddText [] "a") "b") = "ab" :=
  iadd_text_merge_law [PNode.tmpl "T" []] "x" "y" (by decide)

/-- C9: `WikiTemplate.as_text` renders `{{Title|k1=v1|k2=v2...}}` with the
parameters in insertion order; pretty mode (`indent=True`) additionally puts a
newline before each `|` and a trailing newline before the final `}}`; the
template titled `Cite` with parameter `author` set to `Smith` serializes to
`{{Cite|author=Smith}}`. -/
theorem tmpl_as_text_rendering (title : String) (ps : List (String × List PNode)) :
    tmplAsText false title ps
        = "\x7b\x7b" ++ title ++ strConcat (ps.map fun kv => "|" ++ kv.1 ++ "=" ++ asText true kv.2) ++ "\x7d\x7d"
  ∧ tmplAsText true title ps
        = "\x7b\x7b" ++ title ++ strConcat (ps.map fun kv => "\n|" ++ kv.1 ++ "=" ++ asText true kv.2)
            ++ "\n" ++ "\x7d\x7d"
  ∧ tmplAsText false "Cite" [("author", [PNode.text "Smith"])] = "\x7b\x7bCite|author=Smith\x7d\x7d"
  ∧ tmplAsText true "Cite" [("author", [PNode.text "Smith"])] = "\x7b\x7bCite\n|author=Smith\n\x7d\x7d" := by
  refine ⟨?_, ?_, rfl, rfl⟩
  · have h : (("" : String) ++ "|") = "|" := rfl
    simp only [tmplAsText, if_neg (by decide : ¬ (false = true)), paramsOut_eq_strConcat, h]
    rfl
  · have h : (("\n" : String) ++ "|") = "\n|" := rfl
    simp only [tmplAsText, if_pos rfl, paramsOut_eq_strConcat, h, asText]
    simp [String.append_assoc]

/-- C10: in both serialization modes every parameter value is rendered through
`WikiText.__str__`, i.e. `as_text(True)`, which strips leading and trailing
whitespace — the value rendered inside a template is `pyStrip` of its
untrimmed serialization, even though `as_text(False)` on the value itself
preserves that whitespace (e.g. value `" x "` renders as `x` inside the
template but serializes alone as `" x "`). -/
theorem tmpl_values_rendered_trimmed (indent : Bool) (title : String)
    (ps : List (String × List PNode)) (v : List PNode) :
    tmplAsText indent title ps
        = "\x7b\x7b" ++ title
            ++ strConcat (ps.map fun kv =>
                  (if indent then "\n" else "") ++ "|" ++ kv.1 ++ "=" ++ pyStrip (asText false kv.2))
            ++ (if indent then "\n" ++ "\x7d\x7d" else "\x7d\x7d")
  ∧ asText true v = pyStrip (asText false v)
  ∧ tmplAsText false "T" [("k", [PNode.text " x "])] = "\x7b\x7bT|k=x\x7d\x7d"
  ∧ tmplAsText true "T" [("k", [PNode.text " x "])] = "\x7b\x7bT\n|k=x\n\x7d\x7d"
  ∧ asText false [PNode.text " x "] = " x " := by
  refine ⟨?_, rfl, rfl, rfl, rfl⟩
  cases indent with
  | false =>
    simp only [tmplAsText, if_neg (by decide : ¬ (false = true)), paramsOut_eq_strConcat, asText]
  | true =>
    simp only [tmplAsText, if_pos rfl, paramsOut_eq_strConcat, asText]
    simp [String.append_assoc]

/-- Heap view: a node of a `WikiText._l` list is a text run or a reference to
a `WikiTemplate` object, identified by a numeric object id. -/
inductive HNode where
  | text : String → HNode
  | tmpl : Nat → HNode
deriving DecidableEq, Repr

/-- A `WikiTemplate` object: `title`, the ordered dict `_params` (parameter
name to the object id of the `WikiText` value, in insertion order), and the
`parent` back-reference (a `WikiText` object id, or `none` for Python `None`). -/
structure TmplObj where
  title : String
  params : List (String × Nat)
  parent : Option Nat
deriving DecidableEq, Repr

/-- The object heap: `docs` maps a `WikiText` object id to its `_l` node list,
`tmpls` maps a `WikiTemplate` object id to the object, and `next` is the next
fresh `WikiText` id used when an operation constructs a new `WikiText`. -/
structure State where
  docs : Nat → List HNode
  tmpls : Nat → TmplObj
  next : Nat

/-- A Python value passed to an operation: a `str`, a `WikiTemplate` object, a
`WikiText` object, `None`, or a value of any other type (represented by an
`Int`, standing for every type the operations reject). -/
inductive PyVal where
  | pstr : String → PyVal
  | ptmpl : Nat → PyVal
  | ptext : Nat → PyVal
  | pnone : PyVal
  | pint : Int → PyVal
deriving DecidableEq, Repr

/-- Replace document `d`'s node list. -/
def State.setDoc (s : State) (d : Nat) (l : List HNode) : State :=
  { s with docs := fun n => if n = d then l else s.docs n }

/-- Replace template object `t`. -/
def State.setTmpl (s : State) (t : Nat) (o : TmplObj) : State :=
  { s with tmpls := fun n => if n = t then o else s.tmpls n }

/-- The `str` branch of `WikiText.__iadd__` on the node list: empty text is a
no-op; otherwise the text is concatenated onto the last node if that node is a
text run (`self._l and isinstance(self._l[-1], str)`) and appended otherwise. -/
def iaddStr (l : List HNode) (s : String) : List HNode :=
  if s = "" then l
  else
    match l.getLast? with
    | some (.text t) => l.dropLast ++ [.text (t ++ s)]
    | _ => l ++ [.text s]

/-- The `WikiTemplate` branch of `WikiText.__iadd__`: `self._l.append(other)`
then `other.parent = self`, overwriting any previous back-reference. -/
def appendTmpl (s : State) (d : Nat) (t : Nat) : State :=
  (s.setDoc d (s.docs d ++ [HNode.tmpl t])).setTmpl t { s.tmpls t with parent := some d }

/-- One step of the `WikiText` branch of `WikiText.__iadd__` (`for e in
other._l: self += e`): each element of the merged list is a `str` or a
`WikiTemplate`, so only those two branches of `__iadd__` can run. -/
def iaddNode (d : Nat) (s : State) (n : HNode) : State :=
  match n with
  | .text str => s.setDoc d (iaddStr (s.docs d) str)
  | .tmpl t => appendTmpl s d t

/-- `WikiText.__iadd__(self=d, other=v)`.  The result pairs the raised
exception (or `none`) with the heap after the call; the `TypeError` branches
raise before any mutation.  The `WikiText` branch folds over the snapshot of
`other._l`, which matches CPython's live iteration whenever `other` is not
`self` (appending to `self` never mutates a different object's `_l`; the
theorems about this branch assume `other ≠ self`, where Python's behaviour on
`self`-append is divergence or list mutation mid-iteration). -/
def iadd (s : State) (d : Nat) (v : PyVal) : Option PyErr × State :=
  match v with
  | .pstr str => (none, s.setDoc d (iaddStr (s.docs d) str))
  | .ptmpl t => (none, appendTmpl s d t)
  | .ptext w => (none, (s.docs w).foldl (iaddNode d) s)
  | .pnone => (some .typeError, s)
  | .pint _ => (some .typeError, s)

/-- One element of the `WikiText.__init__` loop `for e in elements: self += e`,
stopping at the first raised exception. -/
def constructStep (d : Nat) (acc : Option PyErr × State) (v : PyVal) : Option PyErr × State :=
  match acc with
  | (some e, st) => (some e, st)
  | (none, st) => iadd st d v

/-- `WikiText.__init__(*elements)` run against document id `d`: `self._l = []`
then append each element in order. -/
def construct (s : State) (d : Nat) (elems : List PyVal) : Option PyErr × State :=
  elems.foldl (constructStep d) (none, s.setDoc d [])

/-- `WikiTemplate.drop(self=t)`: `if self.parent:` (falsy for `None` and for
an empty `WikiText`) `self.parent._l.remove(self); self.parent = None`.
`list.remove` deletes the first occurrence and raises `ValueError` (modelled
as `none`) when the element is absent. -/
def drop (s : State) (t : Nat) : Option State :=
  match (s.tmpls t).parent with
  | none => some s
  | some p =>
    if s.docs p = [] then some s
    else if HNode.tmpl t ∈ s.docs p then
      some ((s.setDoc p ((s.docs p).erase (HNode.tmpl t))).setTmpl t
        { s.tmpls t with parent := none })
    else none

/-- Python dict lookup `d[k]` (as an option) on the ordered association list. -/
def pyGet : List (String × Nat) → String → Option Nat
  | [], _ => none
  | (k', v) :: rest, k => if k' = k then some v else pyGet rest k

/-- Python dict assignment `d[k] = v`: an existing key keeps its position in
iteration order and only its value is replaced; a new key is appended at the
end of iteration order. -/
def pyUpdate : List (String × Nat) → String → Nat → List (String × Nat)
  | [], k, v => [(k, v)]
  | (k', v') :: rest, k, v => if k' = k then (k, v) :: rest else (k', v') :: pyUpdate rest k v

/-- Python `d.pop(k)`: the removed value (or `none` when the key is absent)
together with the remaining ordered dict. -/
def pyPop : List (String × Nat) → String → Option Nat × List (String × Nat)
  | [], _ => (none, [])
  | (k', v') :: rest, k =>
    if k' = k then (some v', rest)
    else
      let r := pyPop rest k
      (r.1, (k', v') :: r.2)

/-- `WikiTemplate.__contains__(self=t, item)`: `item in self._params`; a
non-`str` item never equals a `str` dict key, so membership is `False` for it. -/
def containsKey (s : State) (t : Nat) (item : PyVal) : Bool :=
  match item with
  | .pstr k => (pyGet (s.tmpls t).params k).isSome
  | _ => false

/-- `WikiTemplate.__getitem__(self=t, key)`: `if key not in self: raise
KeyError`, otherwise `return self._params[key]`.  The inner `none` branch and
the non-`str` inner branch are unreachable: the membership test just
succeeded, so `key` is a `str` present in the dict. -/
def getitem (s : State) (t : Nat) (key : PyVal) : Except PyErr Nat :=
  if containsKey s t key = false then .error .keyError
  else
    match key with
    | .pstr k =>
      match pyGet (s.tmpls t).params k with
      | some w => .ok w
      | none => .error .keyError
    | _ => .error .keyError

/-- `WikiTemplate.pop(self=t, k)`: `with suppress(KeyError): return
self._params.pop(k)` — total, returning the removed value or `none`, never
raising. -/
def pop (s : State) (t : Nat) (k : String) : Option Nat × State :=
  let r := pyPop (s.tmpls t).params k
  (r.1, s.setTmpl t { s.tmpls t with params := r.2 })

/-- `WikiTemplate.__setitem__(self=t, key, value)`: a non-`str` key raises
`TypeError`; a value that is not a `str`, `WikiTemplate` or `WikiText` raises
`TypeError`; both raises happen before any mutation.  Otherwise
`self._params[key] = value if isinstance(value, WikiText) else WikiText(value)`:
a `WikiText` value is stored as the object itself, while a `str` or
`WikiTemplate` value is wrapped in a freshly constructed `WikiText` (id
`s.next`), whose `__init__` appends the value to the new empty object. -/
def setitem (s : State) (t : Nat) (key value : PyVal) : Option PyErr × State :=
  match key with
  | .pstr k =>
    match value with
    | .ptext w =>
      (none, s.setTmpl t { s.tmpls t with params := pyUpdate (s.tmpls t).params k w })
    | .pstr str =>
      let w := s.next
      let s1 := { s with next := s.next + 1 }
      let s2 := s1.setDoc w (iaddStr [] str)
      (none, s2.setTmpl t { s2.tmpls t with params := pyUpdate (s2.tmpls t).params k w })
    | .ptmpl tr =>
      let w := s.next
      let s1 := { s with next := s.next + 1 }
      let s2 := appendTmpl (s1.setDoc w []) w tr
      (none, s2.setTmpl t { s2.tmpls t with params := pyUpdate (s2.tmpls t).params k w })
    | .pnone => (some .typeError, s)
    | .pint _ => (some .typeError, s)
  | _ => (some .typeError, s)

/-- `WikiTemplate.remap(self=t, old_key, new_key)`: `if old_key in self:
self[new_key] = self.pop(old_key)`.  CPython evaluates the right-hand side
first, so the pop mutates `_params` before `__setitem__` checks `new_key`; the
popped value is a `WikiText` object, and the (unreachable under the membership
guard) `none` result of `pop` would be Python `None`. -/
def remap (s : State) (t : Nat) (oldKey newKey : PyVal) : Option PyErr × State :=
  if containsKey s t oldKey then
    match oldKey with
    | .pstr ok =>
      let r := pop s t ok
      match r.1 with
      | some w => setitem r.2 t newKey (.ptext w)
      | none => setitem r.2 t newKey .pnone
    | _ => (none, s)
  else (none, s)

/-- `isinstance(x, str)` for a heap node. -/
def isTextRun : HNode → Bool
  | .text _ => true
  | .tmpl _ => false

/-- Whether two adjacent nodes of a node list are both text runs. -/
def hasAdjTexts : List HNode → Bool
  | [] => false
  | [_] => false
  | a :: b :: rest => (isTextRun a && isTextRun b) || hasAdjTexts (b :: rest)

/-- Whether the node list stores an empty text run. -/
def hasEmptyText (l : List HNode) : Bool :=
  l.any fun n => n = HNode.text ""

/-- The node-sequence invariant claimed of a Document: no two adjacent text
runs and no empty text run. -/
def goodRuns (l : List HNode) : Prop :=
  hasAdjTexts l = false ∧ hasEmptyText l = false

/-- Appending one node touches adjacency only at the seam with the previous
last node. -/
theorem hasAdjTexts_concat (l : List HNode) (x : HNode) :
    hasAdjTexts (l ++ [x])
      = (hasAdjTexts l || ((l.getLast?.map isTextRun).getD false && isTextRun x)) := by
  induction l with
  | nil => simp [hasAdjTexts]
  | cons a l ih =>
    cases l with
    | nil => simp [hasAdjTexts]
    | cons b l' =>
      simp only [List.cons_append, hasAdjTexts, List.append_eq] at *
      rw [ih]
      simp [List.getLast?_cons_cons, Bool.or_assoc]

/-- Appending one node adds at most that node as an empty text run. -/
theorem hasEmptyText_concat (l : List HNode) (x : HNode) :
    hasEmptyText (l ++ [x]) = (hasEmptyText l || x = HNode.text "") := by
  simp [hasEmptyText]

/-- Concatenating a nonempty string onto any string stays nonempty. -/
theorem append_str_ne_empty (t : String) {s : String} (hs : s ≠ "") : t ++ s ≠ "" := by
  intro h
  have hlen := congrArg String.length h
  simp only [String.length_append] at hlen
  have h0 : s.length = 0 := by
    have : ("" : String).length = 0 := rfl
    omega
  apply hs
  cases s with
  | mk d => cases d with
    | nil => rfl
    | cons c cs => simp [String.length] at h0

/-- The `str` branch of `__iadd__` preserves the run invariant. -/
theorem goodRuns_iaddStr {l : List HNode} (h : goodRuns l) (s : String) :
    goodRuns (iaddStr l s) := by
  obtain ⟨h1, h2⟩ := h
  unfold iaddStr
  by_cases hs : s = ""
  · simp only [if_pos hs]
    exact ⟨h1, h2⟩
  · simp only [if_neg hs]
    split
    · next t heq =>
      have hl : l.dropLast ++ [HNode.text t] = l := List.dropLast_append_getLast? _ heq
      constructor
      · have hrw := hasAdjTexts_concat l.dropLast (HNode.text t)
        rw [hl] at hrw
        rw [hasAdjTexts_concat]
        rw [hrw] at h1
        simpa [isTextRun] using h1
      · have hrw := hasEmptyText_concat l.dropLast (HNode.text t)
        rw [hl] at hrw
        rw [hrw] at h2
        rw [hasEmptyText_concat]
        simp only [Bool.or_eq_false_iff] at h2 ⊢
        refine ⟨h2.1, ?_⟩
        simp only [decide_eq_false_iff_not]
        intro hcon
        have ht : t ++ s = "" := by injection hcon
        exact append_str_ne_empty t hs ht
    · next y hne =>
      constructor
      · rw [hasAdjTexts_concat]
        simp only [Bool.or_eq_false_iff]
        refine ⟨h1, ?_⟩
        cases hl : l.getLast? with
        | none => simp
        | some z =>
          cases z with
          | text u => exact (hne u hl).elim
          | tmpl n => simp [hl, isTextRun]
      · rw [hasEmptyText_concat]
        simp only [Bool.or_eq_false_iff]
        refine ⟨h2, ?_⟩
        simp only [decide_eq_false_iff_not]
        intro hcon
        exact hs (by injection hcon)

/-- Appending a template node preserves the run invariant. -/
theorem goodRuns_appendTmplNode {l : List HNode} (h : goodRuns l) (t : Nat) :
    goodRuns (l ++ [HNode.tmpl t]) := by
  obtain ⟨h1, h2⟩ := h
  constructor
  · rw [hasAdjTexts_concat]
    simp [h1, isTextRun]
  · rw [hasEmptyText_concat]
    simp [h2]

@[simp]
theorem setDoc_docs (s : State) (d : Nat) (l : List HNode) (e : Nat) :
    (s.setDoc d l).docs e = if e = d then l else s.docs e := rfl

@[simp]
theorem setDoc_tmpls (s : State) (d : Nat) (l : List HNode) :
    (s.setDoc d l).tmpls = s.tmpls := rfl

@[simp]
theorem setTmpl_docs (s : State) (t : Nat) (o : TmplObj) :
    (s.setTmpl t o).docs = s.docs := rfl

@[simp]
theorem setTmpl_tmpls (s : State) (t : Nat) (o : TmplObj) (u : Nat) :
    (s.setTmpl t o).tmpls u = if u = t then o else s.tmpls u := rfl

/-- One merge step preserves the run invariant of the target document. -/
theorem iaddNode_docs_good {st : State} {d : Nat} (n : HNode)
    (h : goodRuns (st.docs d)) : goodRuns ((iaddNode d st n).docs d) := by
  cases n with
  | text str =>
    simpa [iaddNode] using goodRuns_iaddStr h str
  | tmpl t =>
    simpa [iaddNode, appendTmpl] using goodRuns_appendTmplNode h t

/-- One merge step leaves every other document unchanged. -/
theorem iaddNode_docs_frame {st : State} {d e : Nat} (he : e ≠ d) (n : HNode) :
    (iaddNode d st n).docs e = st.docs e := by
  cases n with
  | text str => simp [iaddNode, he]
  | tmpl t => simp [iaddNode, appendTmpl, he]

/-- The merge loop preserves the run invariant of the target document. -/
theorem foldl_iaddNode_good {d : Nat} (ns : List HNode) :
    ∀ st : State, goodRuns (st.docs d) → goodRuns ((ns.foldl (iaddNode d) st).docs d) := by
  induction ns with
  | nil => intro st h; exact h
  | cons n rest ih =>
    intro st h
    rw [List.foldl_cons]
    exact ih _ (iaddNode_docs_good n h)

/-- The merge loop leaves every other document unchanged. -/
theorem foldl_iaddNode_frame {d e : Nat} (he : e ≠ d) (ns : List HNode) :
    ∀ st : State, (ns.foldl (iaddNode d) st).docs e = st.docs e := by
  induction ns with
  | nil => intro st; rfl
  | cons n rest ih =>
    intro st
    rw [List.foldl_cons, ih, iaddNode_docs_frame he]

/-- `__iadd__` preserves the run invariant of the target document. -/
theorem iadd_good {s : State} {d : Nat} {v : PyVal}
    (h : goodRuns (s.docs d)) : goodRuns (((iadd s d v).2).docs d) := by
  cases v with
  | pstr str => simpa [iadd] using goodRuns_iaddStr h str
  | ptmpl t => simpa [iadd, appendTmpl] using goodRuns_appendTmplNode h t
  | ptext w => exact foldl_iaddNode_good _ _ h
  | pnone => exact h
  | pint n => exact h

/-- `__iadd__` on document `d` leaves every other document unchanged. -/
theorem iadd_frame {s : State} {d : Nat} {v : PyVal} {e : Nat} (he : e ≠ d) :
    ((iadd s d v).2).docs e = s.docs e := by
  cases v with
  | pstr str => simp [iadd, he]
  | ptmpl t => simp [iadd, appendTmpl, he]
  | ptext w => exact foldl_iaddNode_frame he _ _
  | pnone => rfl
  | pint n => rfl

/-- One constructor step preserves the run invariant of the target document. -/
theorem constructStep_good {d : Nat} {acc : Option PyErr × State} {v : PyVal}
    (h : goodRuns (acc.2.docs d)) : goodRuns ((constructStep d acc v).2.docs d) := by
  obtain ⟨err, st⟩ := acc
  cases err with
  | some e => exact h
  | none => exact iadd_good h

/-- One constructor step leaves every other document unchanged. -/
theorem constructStep_frame {d e : Nat} {acc : Option PyErr × State} {v : PyVal}
    (he : e ≠ d) : ((constructStep d acc v).2).docs e = acc.2.docs e := by
  obtain ⟨err, st⟩ := acc
  cases err with
  | some x => rfl
  | none => exact iadd_frame he

/-- The constructor loop preserves the run invariant of the target document. -/
theorem foldl_constructStep_good {d : Nat} (elems : List PyVal) :
    ∀ acc : Option PyErr × State, goodRuns (acc.2.docs d) →
      goodRuns ((elems.foldl (constructStep d) acc).2.docs d) := by
  induction elems with
  | nil => intro acc h; exact h
  | cons v rest ih =>
    intro acc h
    rw [List.foldl_cons]
    exact ih _ (constructStep_good h)

/-- The constructor loop leaves every other document unchanged. -/
theorem foldl_constructStep_frame {d e : Nat} (he : e ≠ d) (elems : List PyVal) :
    ∀ acc : Option PyErr × State,
      ((elems.foldl (constructStep d) acc).2).docs e = acc.2.docs e := by
  induction elems with
  | nil => intro acc; rfl
  | cons v rest ih =>
    intro acc
    rw [List.foldl_cons, ih, constructStep_frame he]

/-- Unfolding `drop` when the popped template has no parent. -/
theorem drop_parent_none {s : State} {t : Nat} (hp : (s.tmpls t).parent = none) :
    drop s t = some s := by
  unfold drop
  rw [hp]

/-- Unfolding `drop` when the popped template has a parent. -/
theorem drop_parent_some {s : State} {t : Nat} {p : Nat}
    (hp : (s.tmpls t).parent = some p) :
    drop s t
      = (if s.docs p = [] then some s
         else if HNode.tmpl t ∈ s.docs p then
           some ((s.setDoc p ((s.docs p).erase (HNode.tmpl t))).setTmpl t
             { s.tmpls t with parent := none })
         else none) := by
  unfold drop
  rw [hp]

/-- `drop` never introduces an empty text run (it only removes a node). -/
theorem drop_noEmpty {s : State} {t : Nat} {s' : State}
    (h : drop s t = some s') (e : Nat)
    (he : hasEmptyText (s.docs e) = false) : hasEmptyText (s'.docs e) = false := by
  cases hp : (s.tmpls t).parent with
  | none =>
    rw [drop_parent_none hp] at h
    cases h
    exact he
  | some p =>
    rw [drop_parent_some hp] at h
    by_cases hemp : s.docs p = []
    · rw [if_pos hemp] at h
      cases h
      exact he
    · rw [if_neg hemp] at h
      by_cases hmem : HNode.tmpl t ∈ s.docs p
      · rw [if_pos hmem] at h
        cases h
        by_cases hep : e = p
        · subst hep
          simp only [setTmpl_docs, setDoc_docs, eq_self_iff_true, if_true]
          simp only [hasEmptyText, List.any_eq_false] at he ⊢
          intro x hx
          exact he x (List.mem_of_mem_erase hx)
        · simpa [hep] using he
      · rw [if_neg hmem] at h
        cases h

/-- The empty heap: all documents empty, all template objects blank. -/
def heapEmpty : State :=
  { docs := fun _ => [], tmpls := fun _ => { title := "", params := [], parent := none },
    next := 0 }

/-- The heap after `WikiText("a", T, "b")` for a template object `T` (id 1),
built into document id 0. -/
def c1State : State := (construct heapEmpty 0 [.pstr "a", .ptmpl 1, .pstr "b"]).2

/-- C1 counterexample: after constructing `WikiText("a", T, "b")` — whose node
sequence `["a", T, "b"]` satisfies the invariant — the operation `T.drop()`
removes the template node without re-merging its neighbours, leaving the two
adjacent text runs `["a", "b"]`; so the invariant does not survive every
sequence of construction, `+=` and `drop` operations, contrary to the claim. -/
theorem drop_breaks_run_merging_counterexample :
    c1State.docs 0 = [HNode.text "a", HNode.tmpl 1, HNode.text "b"]
  ∧ hasAdjTexts (c1State.docs 0) = false
  ∧ hasEmptyText (c1State.docs 0) = false
  ∧ ((drop c1State 1).getD c1State).docs 0 = [HNode.text "a", HNode.text "b"]
  ∧ hasAdjTexts (((drop c1State 1).getD c1State).docs 0) = true := by
  decide

/-- C1 amended: construction and `+=` (with any argument, including failing
ones) preserve the invariant "no two adjacent text runs and no empty text run"
of every document; `drop` preserves the absence of empty text runs but, as the
counterexample shows, can leave two adjacent text runs.  The `ptext`
side-condition excludes appending a `WikiText` to itself, on which Python
mutates the list it is iterating. -/
theorem runs_invariant_amended :
    (∀ (s : State) (d : Nat) (v : PyVal) (e : Nat),
        (∀ w, v = PyVal.ptext w → w ≠ d) → goodRuns (s.docs e) →
        goodRuns (((iadd s d v).2).docs e))
  ∧ (∀ (s : State) (d : Nat) (elems : List PyVal) (e : Nat),
        (∀ w, PyVal.ptext w ∈ elems → w ≠ d) → (e = d ∨ goodRuns (s.docs e)) →
        goodRuns (((construct s d elems).2).docs e))
  ∧ (∀ (s : State) (t : Nat) (s' : State) (e : Nat),
        drop s t = some s' → hasEmptyText (s.docs e) = false →
        hasEmptyText (s'.docs e) = false) := by
  refine ⟨?_, ?_, ?_⟩
  · intro s d v e _ h
    by_cases he : e = d
    · subst he
      exact iadd_good h
    · rw [iadd_frame he]
      exact h
  · intro s d elems e _ h
    by_cases he : e = d
    · subst he
      unfold construct
      apply foldl_constructStep_good
      constructor <;> simp [hasAdjTexts, hasEmptyText]
    · rw [show ((construct s d elems).2).docs e = s.docs e by
        unfold construct
        rw [foldl_constructStep_frame he]
        simp [he]]
      cases h with
      | inl hh => exact absurd hh he
      | inr hh => exact hh
  · intro s t s' e h he
    exact drop_noEmpty h e he

/-- Witness for `runs_invariant_amended`: its three parts applied at concrete
heaps — appending text to the constructed document, constructing
`WikiText("a", T)`, and dropping `T` from `WikiText("a", T, "b")`. -/
theorem runs_invariant_amended_witness :
    goodRuns (((iadd c1State 0 (PyVal.pstr "c")).2).docs 0)
  ∧ goodRuns (((construct heapEmpty 0 [PyVal.pstr "a", PyVal.ptmpl 1]).2).docs 0)
  ∧ hasEmptyText (((drop c1State 1).getD c1State).docs 0) = false :=
  ⟨runs_invariant_amended.1 c1State 0 (PyVal.pstr "c") 0
      (fun w hw => by simp at hw) ⟨by decide, by decide⟩,
   runs_invariant_amended.2.1 heapEmpty 0 [PyVal.pstr "a", PyVal.ptmpl 1] 0
      (fun w hw => by simp at hw) (Or.inl rfl),
   runs_invariant_amended.2.2 c1State 1 ((drop c1State 1).getD c1State) 0 rfl (by decide)⟩

/-- C5: appending a `WikiTemplate` `t` to document `d` raises nothing, appends
`t` as a node of `d`, and overwrites `t`'s back-reference to point at `d`;
the old parent `p`'s node sequence is untouched and still contains `t` — no
detach is performed. -/
theorem iadd_template_reparents (s : State) (d t p : Nat)
    (_hp : (s.tmpls t).parent = some p) (hpd : p ≠ d)
    (hmem : HNode.tmpl t ∈ s.docs p) :
    (iadd s d (.ptmpl t)).1 = none
  ∧ ((iadd s d (.ptmpl t)).2).docs d = s.docs d ++ [HNode.tmpl t]
  ∧ (((iadd s d (.ptmpl t)).2).tmpls t).parent = some d
  ∧ ((iadd s d (.ptmpl t)).2).docs p = s.docs p
  ∧ HNode.tmpl t ∈ ((iadd s d (.ptmpl t)).2).docs p := by
  refine ⟨rfl, ?_, ?_, ?_, ?_⟩
  · simp [iadd, appendTmpl]
  · simp [iadd, appendTmpl]
  · simp [iadd, appendTmpl, hpd]
  · simpa [iadd, appendTmpl, hpd] using hmem

/-- The heap in which template object 0 is the sole node of document 1 and has
document 1 as its parent. -/
def c5State : State :=
  (heapEmpty.setDoc 1 [HNode.tmpl 0]).setTmpl 0 { title := "T", params := [], parent := some 1 }

/-- Witness for `iadd_template_reparents`: appending template 0 (whose parent
is document 1) to document 2. -/
theorem iadd_template_reparents_witness :
    (c5State.tmpls 0).parent = some 1
  ∧ HNode.tmpl 0 ∈ c5State.docs 1
  ∧ ((iadd c5State 2 (.ptmpl 0)).1 = none
  ∧ ((iadd c5State 2 (.ptmpl 0)).2).docs 2 = c5State.docs 2 ++ [HNode.tmpl 0]
  ∧ (((iadd c5State 2 (.ptmpl 0)).2).tmpls 0).parent = some 2
  ∧ ((iadd c5State 2 (.ptmpl 0)).2).docs 1 = c5State.docs 1
  ∧ HNode.tmpl 0 ∈ ((iadd c5State 2 (.ptmpl 0)).2).docs 1) :=
  ⟨by decide, by decide,
   iadd_template_reparents c5State 2 0 1 (by decide) (by decide) (by decide)⟩

/-- C6: for a template `t` whose back-reference points at a document `p` whose
sequence contains it (the consistent states of the data model), `drop` removes
the (first) occurrence of `t` from `p`'s node sequence — so when `t` occurs
once it is absent afterwards — and clears the back-reference; dropping again
changes nothing, so `drop` twice equals `drop` once; and on a detached
template (`parent` is `None`) `drop` changes nothing at all. -/
theorem drop_detach_contract :
    (∀ (s : State) (t p : Nat), (s.tmpls t).parent = some p → HNode.tmpl t ∈ s.docs p →
        (drop s t).isSome = true
      ∧ ((drop s t).getD s).docs p = (s.docs p).erase (HNode.tmpl t)
      ∧ (((drop s t).getD s).tmpls t).parent = none
      ∧ ((s.docs p).count (HNode.tmpl t) = 1 → HNode.tmpl t ∉ ((drop s t).getD s).docs p)
      ∧ drop ((drop s t).getD s) t = drop s t)
  ∧ (∀ (s : State) (t : Nat), (s.tmpls t).parent = none → drop s t = some s) := by
  constructor
  · intro s t p hp hmem
    have hne : s.docs p ≠ [] := List.ne_nil_of_mem hmem
    have hd : drop s t
        = some ((s.setDoc p ((s.docs p).erase (HNode.tmpl t))).setTmpl t
            { s.tmpls t with parent := none }) := by
      rw [drop_parent_some hp, if_neg hne, if_pos hmem]
    rw [hd]
    refine ⟨rfl, by simp, by simp, ?_, ?_⟩
    · intro hcount hmem2
      have hz : ((s.docs p).erase (HNode.tmpl t)).count (HNode.tmpl t) = 0 := by
        rw [List.count_erase_self, hcount]
      have hpos := List.count_pos_iff.mpr (show HNode.tmpl t ∈ (s.docs p).erase (HNode.tmpl t) by
        simpa using hmem2)
      omega
    · apply drop_parent_none
      simp
  · intro s t hp
    exact drop_parent_none hp

/-- The heap after building `WikiText("a", T, "b")` by hand, for the detach
witness. -/
def c6State : State :=
  (heapEmpty.setDoc 1 [HNode.text "a", HNode.tmpl 0, HNode.text "b"]).setTmpl 0
    { title := "T", params := [], parent := some 1 }

/-- Witness for `drop_detach_contract`: dropping template 0 out of document 1,
and dropping an already detached template. -/
theorem drop_detach_contract_witness :
    ((drop c6State 0).isSome = true
  ∧ ((drop c6State 0).getD c6State).docs 1 = (c6State.docs 1).erase (HNode.tmpl 0)
  ∧ (((drop c6State 0).getD c6State).tmpls 0).parent = none
  ∧ ((c6State.docs 1).count (HNode.tmpl 0) = 1 →
      HNode.tmpl 0 ∉ ((drop c6State 0).getD c6State).docs 1)
  ∧ drop ((drop c6State 0).getD c6State) 0 = drop c6State 0)
  ∧ drop heapEmpty 0 = some heapEmpty :=
  ⟨drop_detach_contract.1 c6State 0 1 (by decide) (by decide),
   drop_detach_contract.2 heapEmpty 0 (by decide)⟩

/-- `dict.pop` returns exactly the looked-up value (or `none` when absent). -/
theorem pyPop_fst (l : List (String × Nat)) (k : String) : (pyPop l k).1 = pyGet l k := by
  induction l with
  | nil => rfl
  | cons kv rest ih =>
    obtain ⟨k', v⟩ := kv
    by_cases h : k' = k <;> simp [pyPop, pyGet, h, ih]

/-- Popping an absent key leaves the ordered dict unchanged. -/
theorem pyPop_absent {l : List (String × Nat)} {k : String} (h : pyGet l k = none) :
    (pyPop l k).2 = l := by
  induction l with
  | nil => rfl
  | cons kv rest ih =>
    obtain ⟨k', v⟩ := kv
    by_cases hk : k' = k
    · simp [pyGet, hk] at h
    · simp only [pyGet, if_neg hk] at h
      simp only [pyPop, if_neg hk]
      simp [ih h]

/-- Lookup of a key that is not among the dict's keys yields `none`. -/
theorem pyGet_not_mem_keys {l : List (String × Nat)} {k : String}
    (h : k ∉ l.map Prod.fst) : pyGet l k = none := by
  induction l with
  | nil => rfl
  | cons kv rest ih =>
    obtain ⟨k', v⟩ := kv
    simp only [List.map_cons, List.mem_cons] at h
    push_neg at h
    by_cases hk : k' = k
    · exact (h.1 hk.symm).elim
    · simp only [pyGet, if_neg hk]
      exact ih h.2

/-- With unique keys (as in every Python dict), a popped key is gone. -/
theorem pyPop_nodup_get {l : List (String × Nat)} {k : String}
    (h : (l.map Prod.fst).Nodup) : pyGet (pyPop l k).2 k = none := by
  induction l with
  | nil => rfl
  | cons kv rest ih =>
    obtain ⟨k', v⟩ := kv
    simp only [List.map_cons, List.nodup_cons] at h
    obtain ⟨hk', hrest⟩ := h
    by_cases hk : k' = k
    · subst hk
      simp only [pyPop, if_pos rfl]
      exact pyGet_not_mem_keys hk'
    · simp only [pyPop, if_neg hk, pyGet]
      exact ih hrest

/-- C7: indexed Get fails with `KeyError` exactly when the key is absent (also
for non-`str` keys, which are never dict members) and returns the parameter's
`WikiText` otherwise; `pop` is total — never raising — and returns the removed
value when present (removing the key from the mapping) and Python `None` when
absent, in which case the heap is unchanged; `__contains__` is a total Boolean
test. -/
theorem getitem_pop_contract (s : State) (t : Nat) (key : PyVal) :
    ((∃ e, getitem s t key = .error e) ↔ containsKey s t key = false)
  ∧ (∀ k w, key = .pstr k → pyGet (s.tmpls t).params k = some w → getitem s t key = .ok w)
  ∧ (∀ k, (pop s t k).1 = pyGet (s.tmpls t).params k)
  ∧ (∀ k, pyGet (s.tmpls t).params k = none → (pop s t k).2 = s)
  ∧ (∀ k, ((s.tmpls t).params.map Prod.fst).Nodup →
      pyGet (((pop s t k).2.tmpls t)).params k = none) := by
  refine ⟨?_, ?_, ?_, ?_, ?_⟩
  · constructor
    · rintro ⟨e, he⟩
      cases hcc : containsKey s t key with
      | false => rfl
      | true =>
        exfalso
        cases key with
        | pstr k =>
          have hw' : (pyGet (s.tmpls t).params k).isSome = true := by
            simpa [containsKey] using hcc
          obtain ⟨w, hw⟩ := Option.isSome_iff_exists.mp hw'
          have hok : getitem s t (.pstr k) = .ok w := by
            simp [getitem, hcc, hw]
          rw [hok] at he
          simp at he
        | ptmpl x => simp [containsKey] at hcc
        | ptext x => simp [containsKey] at hcc
        | pnone => simp [containsKey] at hcc
        | pint x => simp [containsKey] at hcc
    · intro h
      exact ⟨.keyError, by simp [getitem, h]⟩
  · rintro k w rfl hw
    have hc : containsKey s t (.pstr k) = true := by simp [containsKey, hw]
    simp [getitem, hc, hw]
  · intro k
    exact pyPop_fst _ _
  · intro k hk
    show s.setTmpl t { s.tmpls t with params := (pyPop (s.tmpls t).params k).2 } = s
    rw [pyPop_absent hk]
    cases s with
    | mk docs tmpls next =>
      simp only [State.setTmpl]
      congr 1
      funext n
      by_cases hn : n = t
      · subst hn
        simp
      · simp [hn]
  · intro k hnd
    simp only [pop, setTmpl_tmpls, if_pos rfl]
    exact pyPop_nodup_get hnd

/-- A template object with the single parameter `a`. -/
def c7State : State :=
  heapEmpty.setTmpl 0 { title := "T", params := [("a", 1)], parent := none }

/-- Witness for `getitem_pop_contract`: lookups and pops of the present key
`a` and the absent key `b`. -/
theorem getitem_pop_contract_witness :
    ((∃ e, getitem c7State 0 (.pstr "b") = .error e) ↔ containsKey c7State 0 (.pstr "b") = false)
  ∧ getitem c7State 0 (.pstr "a") = .ok 1
  ∧ (pop c7State 0 "a").1 = pyGet (c7State.tmpls 0).params "a"
  ∧ (pop c7State 0 "b").2 = c7State
  ∧ pyGet (((pop c7State 0 "a").2.tmpls 0)).params "a" = none :=
  ⟨(getitem_pop_contract c7State 0 (.pstr "b")).1,
   (getitem_pop_contract c7State 0 (.pstr "a")).2.1 "a" 1 rfl (by decide),
   (getitem_pop_contract c7State 0 (.pstr "a")).2.2.1 "a",
   (getitem_pop_contract c7State 0 (.pstr "b")).2.2.2.1 "b" (by decide),
   (getitem_pop_contract c7State 0 (.pstr "a")).2.2.2.2 "a" (by decide)⟩

/-- Assigning a key that is not yet a dict member appends it at the end of
iteration order. -/
theorem pyUpdate_not_mem {l : List (String × Nat)} {k : String}
    (h : k ∉ l.map Prod.fst) (v : Nat) : pyUpdate l k v = l ++ [(k, v)] := by
  induction l with
  | nil => rfl
  | cons kv rest ih =>
    obtain ⟨k', v'⟩ := kv
    simp only [List.map_cons, List.mem_cons] at h
    push_neg at h
    by_cases hk : k' = k
    · exact (h.1 hk.symm).elim
    · simp only [pyUpdate, if_neg hk, List.cons_append, List.cons.injEq, true_and]
      exact ih h.2

/-- `remap` with a present old key and a `str` new key raises nothing and
rebinds: the parameter list becomes the popped list with `new` assigned to the
popped value. -/
theorem remap_present_params (s : State) (t : Nat) (ok nk : String) (w : Nat)
    (hw : pyGet (s.tmpls t).params ok = some w) :
    (remap s t (.pstr ok) (.pstr nk)).1 = none
  ∧ ((remap s t (.pstr ok) (.pstr nk)).2.tmpls t).params
      = pyUpdate (pyPop (s.tmpls t).params ok).2 nk w := by
  have hc : containsKey s t (.pstr ok) = true := by simp [containsKey, hw]
  have hr1 : (pop s t ok).1 = some w := by
    show (pyPop (s.tmpls t).params ok).1 = some w
    rw [pyPop_fst, hw]
  have hrm : remap s t (.pstr ok) (.pstr nk) = setitem (pop s t ok).2 t (.pstr nk) (.ptext w) := by
    simp [remap, hc, hr1]
  rw [hrm]
  constructor
  · rfl
  · show (((pop s t ok).2.setTmpl t
        { (pop s t ok).2.tmpls t with
          params := pyUpdate ((pop s t ok).2.tmpls t).params nk w }).tmpls t).params
      = pyUpdate (pyPop (s.tmpls t).params ok).2 nk w
    simp [pop]

/-- C8 amended: `remap(old, new)` leaves the mapping unchanged when `old` is
absent; when `old` is present it removes `old` and binds `new` to the popped
value; the rebound parameter ends up last in iteration order provided `new`
was not already one of the remaining keys — a pre-existing `new` key keeps its
original position (Python dict assignment to an existing key does not move
it). -/
theorem remap_rename_contract (s : State) (t : Nat) (ok nk : String) :
    (containsKey s t (.pstr ok) = false → remap s t (.pstr ok) (.pstr nk) = (none, s))
  ∧ (∀ w, pyGet (s.tmpls t).params ok = some w →
        (remap s t (.pstr ok) (.pstr nk)).1 = none
      ∧ ((remap s t (.pstr ok) (.pstr nk)).2.tmpls t).params
          = pyUpdate (pyPop (s.tmpls t).params ok).2 nk w)
  ∧ (∀ w, pyGet (s.tmpls t).params ok = some w →
        nk ∉ ((pyPop (s.tmpls t).params ok).2.map Prod.fst) →
        ((remap s t (.pstr ok) (.pstr nk)).2.tmpls t).params
            = (pyPop (s.tmpls t).params ok).2 ++ [(nk, w)]
      ∧ ((((remap s t (.pstr ok) (.pstr nk)).2.tmpls t).params).map Prod.fst).getLast?
          = some nk) := by
  refine ⟨?_, remap_present_params s t ok nk, ?_⟩
  · intro hc
    simp [remap, hc]
  · intro w hw hnk
    have h2 := (remap_present_params s t ok nk w hw).2
    rw [pyUpdate_not_mem hnk] at h2
    refine ⟨h2, ?_⟩
    rw [h2]
    simp

/-- A template object with parameters `a`, `b`, `c` in that order. -/
def c8State : State :=
  heapEmpty.setTmpl 0 { title := "T", params := [("a", 1), ("b", 2), ("c", 3)], parent := none }

/-- C8 counterexample: on the parameters `a, b, c`, `remap("a", "b")` pops `a`
and assigns the popped value to the already-present key `b`, which keeps its
position, so the resulting iteration order is `b, c` — the remapped parameter
`b` is not the last key (`c` is), contradicting the claim. -/
theorem remap_not_last_counterexample :
    (remap c8State 0 (.pstr "a") (.pstr "b")).1 = none
  ∧ ((remap c8State 0 (.pstr "a") (.pstr "b")).2.tmpls 0).params = [("b", 1), ("c", 3)]
  ∧ ((((remap c8State 0 (.pstr "a") (.pstr "b")).2.tmpls 0).params).map Prod.fst).getLast?
      = some "c"
  ∧ ("c" : String) ≠ "b" := by
  refine ⟨by decide, by decide, by decide, by decide⟩

/-- Witness for `remap_rename_contract`: remapping the absent key `z`, and
remapping `a` to the fresh key `d`, which does land at the end. -/
theorem remap_rename_contract_witness :
    (remap c8State 0 (.pstr "z") (.pstr "x") = (none, c8State))
  ∧ ((remap c8State 0 (.pstr "a") (.pstr "d")).1 = none
  ∧ ((remap c8State 0 (.pstr "a") (.pstr "d")).2.tmpls 0).params
      = pyUpdate (pyPop (c8State.tmpls 0).params "a").2 "d" 1)
  ∧ (((remap c8State 0 (.pstr "a") (.pstr "d")).2.tmpls 0).params
      = (pyPop (c8State.tmpls 0).params "a").2 ++ [("d", 1)]
  ∧ ((((remap c8State 0 (.pstr "a") (.pstr "d")).2.tmpls 0).params).map Prod.fst).getLast?
      = some "d") :=
  ⟨(remap_rename_contract c8State 0 "z" "x").1 (by decide),
   (remap_rename_contract c8State 0 "a" "d").2.1 1 (by decide),
   (remap_rename_contract c8State 0 "a" "d").2.2 1 (by decide) (by decide)⟩

/-- C3 amended: a failing Append (`TypeError` for an unsupported node type)
and a failing Set (`TypeError` for a non-`str` key or unsupported value) leave
the heap — hence the document's node sequence and the template's parameter
mapping — exactly as before; but a Rename whose new key is invalid
(non-`str`) is *not* exception-safe: Python evaluates `self.pop(old_key)`
before `__setitem__` raises, so `old_key` is removed from the mapping and its
value lost. -/
theorem failed_ops_contract :
    (∀ (s : State) (d : Nat) (v : PyVal) (e : PyErr) (s' : State),
        iadd s d v = (some e, s') → s' = s)
  ∧ (∀ (s : State) (t : Nat) (k v : PyVal) (e : PyErr) (s' : State),
        setitem s t k v = (some e, s') → s' = s)
  ∧ (∀ (s : State) (t : Nat) (ok : String) (nk : PyVal),
        containsKey s t (.pstr ok) = false → remap s t (.pstr ok) nk = (none, s))
  ∧ (∀ (s : State) (t : Nat) (ok : String) (nk : PyVal) (w : Nat),
        (∀ str, nk ≠ .pstr str) → pyGet (s.tmpls t).params ok = some w →
        remap s t (.pstr ok) nk
          = (some .typeError,
             s.setTmpl t { s.tmpls t with params := (pyPop (s.tmpls t).params ok).2 })) := by
  refine ⟨?_, ?_, ?_, ?_⟩
  · intro s d v e s' h
    cases v <;> simp [iadd] at h <;> exact h.2.symm
  · intro s t k v e s' h
    cases k with
    | pstr kk =>
      cases v <;> simp [setitem] at h <;> exact h.2.symm
    | ptmpl x =>
      simp [setitem] at h
      exact h.2.symm
    | ptext x =>
      simp [setitem] at h
      exact h.2.symm
    | pnone =>
      simp [setitem] at h
      exact h.2.symm
    | pint x =>
      simp [setitem] at h
      exact h.2.symm
  · intro s t ok nk hc
    simp [remap, hc]
  · intro s t ok nk w hnk hw
    have hc : containsKey s t (.pstr ok) = true := by simp [containsKey, hw]
    have hr1 : (pop s t ok).1 = some w := by
      show (pyPop (s.tmpls t).params ok).1 = some w
      rw [pyPop_fst, hw]
    have hrm : remap s t (.pstr ok) nk = setitem (pop s t ok).2 t nk (.ptext w) := by
      simp [remap, hc, hr1]
    rw [hrm]
    cases nk with
    | pstr str => exact (hnk str rfl).elim
    | ptmpl x => rfl
    | ptext x => rfl
    | pnone => rfl
    | pint x => rfl

/-- A template object with the single parameter `a`, for the rename
counterexample. -/
def c3State : State :=
  heapEmpty.setTmpl 0 { title := "T", params := [("a", 1)], parent := none }

/-- C3 counterexample: `remap("a", 7)` on a template whose mapping is
`{a: ...}` raises `TypeError` (non-`str` new key) yet leaves the mapping
empty: the parameter `a` was popped before the raise, so the failed operation
did not leave the parameter mapping as it was. -/
theorem remap_invalid_newkey_corrupts_counterexample :
    (remap c3State 0 (.pstr "a") (.pint 7)).1 = some .typeError
  ∧ (c3State.tmpls 0).params = [("a", 1)]
  ∧ ((remap c3State 0 (.pstr "a") (.pint 7)).2.tmpls 0).params = [] := by
  refine ⟨by decide, by decide, by decide⟩

/-- Witness for `failed_ops_contract`: a failing Append, a failing Set, a
no-op rename of an absent key, and the corrupting rename with a non-`str` new
key, all on concrete heaps. -/
theorem failed_ops_contract_witness :
    ((iadd c3State 0 (PyVal.pint 5)).2 = c3State)
  ∧ ((setitem c3State 0 (PyVal.pint 5) (PyVal.pstr "v")).2 = c3State)
  ∧ (remap c3State 0 (.pstr "z") (.pstr "x") = (none, c3State))
  ∧ (remap c3State 0 (.pstr "a") (.pint 7)
      = (some .typeError,
         c3State.setTmpl 0
           { c3State.tmpls 0 with params := (pyPop (c3State.tmpls 0).params "a").2 })) :=
  ⟨failed_ops_contract.1 c3State 0 (PyVal.pint 5) .typeError _ rfl,
   failed_ops_contract.2.1 c3State 0 (PyVal.pint 5) (PyVal.pstr "v") .typeError _ rfl,
   failed_ops_contract.2.2.1 c3State 0 "z" (.pstr "x") (by decide),
   failed_ops_contract.2.2.2 c3State 0 "a" (.pint 7) 1 (fun str h => by cases h) (by decide)⟩
